import Mathlib

/-!
Verification development for the Barliberty bar point-of-sale repository.

The definitions below are a shallow embedding of the order-flow code of the
Orders page (`handleTableSelection`, `handleProductAdd`, `handleProductRemove`,
`handleQuantityChange`, `calculateTotal`, `handleSubmitOrder`, the table-button
rendering, the manager-name client-type inference) and of the occupancy
percentage shown by the dashboard stats cards.  JavaScript numbers are
idealised as `Int` (quantities, stock) and `ℚ` (prices, money); nullable
fields become `Option`; JS truthiness of ids and strings is embedded
explicitly (`0`, `null` and `""` are falsy).  The server-side merge endpoint
(`POST /api/orders/{id}/items`) is not part of the provided sources; it is
modelled from the specification where noted.
-/

namespace BarPOS

/-- Product catalog row as consumed by the Orders page:
`{id, name, price, stock, minStock, categoryId}`. -/
structure Product where
  id : Nat
  name : String
  price : ℚ
  stock : Int
  minStock : Int
  categoryId : Nat
deriving DecidableEq

/-- Dining table row: `{id, number, capacity, location, status}`.
`status` is the server-cached string field (`"free"` / `"occupied"`). -/
structure Table where
  id : Nat
  number : Int
  capacity : Int
  location : String
  status : String
deriving DecidableEq

/-- Credit client row: `{id, name, totalCredit}`. -/
structure CreditClient where
  id : Nat
  name : String
  totalCredit : ℚ
deriving DecidableEq

/-- An order line as delivered with `OrderWithItems`: the embedded product,
the quantity, and the snapshot price. -/
structure OrderItem where
  product : Product
  quantity : Int
  price : ℚ
deriving DecidableEq

/-- An order as delivered by `GET /api/orders` (`OrderWithItems`), restricted
to the fields the Orders page reads. `status` is the status string
(`"pending"`, `"preparing"`, `"ready"`, `"completed"`, `"cancelled"`);
`creditClientId` and `clientName` are nullable. -/
structure Order where
  id : Nat
  tableId : Nat
  status : String
  creditClientId : Option Nat
  clientName : Option String
  items : List OrderItem
  notes : Option String
deriving DecidableEq

/-- A cart line of the order-construction form: `{product, quantity}`. -/
structure CartItem where
  product : Product
  quantity : Int
deriving DecidableEq

/-- The `OrderStep` React state of the Orders page.  `step` is one of
`"table"`, `"client"`, `"products"`, `"complete"`; `clientType` is `null` or
one of `"anonymous"`, `"credit"`, `"manager"`. -/
structure OrderStep where
  step : String
  selectedTable : Option Table
  clientType : Option String
  selectedClient : Option CreditClient
  anonymousName : String
  managerName : String
  orderItems : List CartItem
  notes : String
deriving DecidableEq

/-- `resetOrder`: the initial/reset form state. -/
def resetOrder : OrderStep :=
  { step := "table"
    selectedTable := none
    clientType := none
    selectedClient := none
    anonymousName := ""
    managerName := ""
    orderItems := []
    notes := "" }

/-- JS truthiness of a nullable numeric id: `null`/`undefined` and `0` are
falsy. -/
def truthyId : Option Nat → Bool
  | none => false
  | some n => n != 0

/-- JS truthiness of a nullable string: `null`/`undefined` and `""` are
falsy. -/
def truthyName : Option String → Bool
  | none => false
  | some s => s != ""

/-- JS `.toLowerCase()` on the ASCII names at hand: lowercase every
character. -/
def toLowerStr (s : String) : String :=
  ⟨s.data.map Char.toLower⟩

/-- The manager-name proxy test used by `handleTableSelection`:
the lowercased client name equals `"carl malack"` or `"lucelle reis"`. -/
def isManagerName (s : String) : Bool :=
  toLowerStr s == "carl malack" || toLowerStr s == "lucelle reis"

/-- `ordersList.find(order => order.tableId === table.id && order.status ===
"pending")` — the existing-pending-order lookup shared by
`handleTableSelection` and `handleSubmitOrder`. -/
def findPendingOrder (ordersList : List Order) (tableId : Nat) : Option Order :=
  ordersList.find? (fun o => o.tableId == tableId && o.status == "pending")

/-- `handleTableSelection`: if the table has an existing pending order,
pre-populate the form from that order (client type inferred from
`creditClientId` truthiness and the manager-name proxy, items copied,
notes copied) and go straight to the `products` step; otherwise select the
table and go to the `client` step. -/
def handleTableSelection (ordersList : List Order)
    (creditClientsList : List CreditClient) (table : Table)
    (prev : OrderStep) : OrderStep :=
  match findPendingOrder ordersList table.id with
  | some existingOrder =>
    { prev with
      selectedTable := some table
      clientType := some (if truthyId existingOrder.creditClientId then "credit"
        else if truthyName existingOrder.clientName &&
            isManagerName ((existingOrder.clientName).getD "") then "manager"
        else "anonymous")
      selectedClient := if truthyId existingOrder.creditClientId then
          creditClientsList.find? (fun c => some c.id == existingOrder.creditClientId)
        else none
      anonymousName := if truthyName existingOrder.clientName &&
          !isManagerName ((existingOrder.clientName).getD "") then
          (existingOrder.clientName).getD "" else ""
      managerName := if truthyName existingOrder.clientName &&
          isManagerName ((existingOrder.clientName).getD "") then
          (existingOrder.clientName).getD "" else ""
      orderItems := existingOrder.items.map (fun item => ⟨item.product, item.quantity⟩)
      notes := (existingOrder.notes).getD ""
      step := "products" }
  | none =>
    { prev with
      selectedTable := some table
      step := "client" }

/-- `handleProductAdd`: if the product is already in the cart, increment its
quantity by one; otherwise append a new cart line with quantity 1. -/
def handleProductAdd (product : Product) (prev : OrderStep) : OrderStep :=
  if (prev.orderItems.find? (fun item => item.product.id == product.id)).isSome then
    { prev with
      orderItems := prev.orderItems.map (fun item =>
        if item.product.id == product.id then
          { item with quantity := item.quantity + 1 }
        else item) }
  else
    { prev with orderItems := prev.orderItems ++ [⟨product, 1⟩] }

/-- `handleProductRemove`: drop the cart line of the given product. -/
def handleProductRemove (productId : Nat) (prev : OrderStep) : OrderStep :=
  { prev with
    orderItems := prev.orderItems.filter (fun item => item.product.id != productId) }

/-- `handleQuantityChange`: a quantity of 0 or less removes the line;
otherwise the line's quantity is overwritten with the given value. -/
def handleQuantityChange (productId : Nat) (quantity : Int)
    (prev : OrderStep) : OrderStep :=
  if quantity ≤ 0 then handleProductRemove productId prev
  else
    { prev with
      orderItems := prev.orderItems.map (fun item =>
        if item.product.id == productId then { item with quantity := quantity }
        else item) }

/-- `calculateTotal`: `orderItems.reduce((total, item) => total +
parseFloat(item.product.price) * item.quantity, 0)`. -/
def calculateTotal (orderItems : List CartItem) : ℚ :=
  orderItems.foldl (fun total item => total + item.product.price * item.quantity) 0

/-- A line of the request payloads sent by `handleSubmitOrder`:
`{productId, quantity, price}`. -/
structure SubmitItem where
  productId : Nat
  quantity : Int
  price : ℚ
deriving DecidableEq

/-- Projection of a cart line to a payload line. -/
def submitItemOf (item : CartItem) : SubmitItem :=
  ⟨item.product.id, item.quantity, item.product.price⟩

/-- The items array computed by `handleSubmitOrder` when the selected table
already has a pending order: completely new products are pushed at the cart
quantity, then existing products whose cart quantity differs from the order's
current quantity are pushed with the cart quantity as the new absolute
quantity; existing products with an unchanged quantity are skipped. -/
def itemsToAdd (existingOrder : Order) (orderItems : List CartItem) : List SubmitItem :=
  let existingProductIds := existingOrder.items.map (fun item => item.product.id)
  let newItems := orderItems.filter
    (fun item => !(existingProductIds.contains item.product.id))
  let updatedItems := orderItems.filter
    (fun item => existingProductIds.contains item.product.id)
  newItems.map submitItemOf ++
    (updatedItems.filter (fun item =>
      match existingOrder.items.find? (fun ex => ex.product.id == item.product.id) with
      | some existingItem => item.quantity != existingItem.quantity
      | none => false)).map submitItemOf

/-- The outcome of `handleSubmitOrder`: a validation-error toast with no
request, an add-items (merge) request, a benign no-op warning toast with no
request, or a create-order request carrying the payload fields. -/
inductive SubmitAction
  | validationError
  | addItems (orderId : Nat) (items : List SubmitItem)
  | noOpWarning
  | createOrder (tableId : Nat) (creditClientId : Option Nat)
      (clientName : Option String) (totalAmount : ℚ) (notes : String)
      (items : List SubmitItem)
deriving DecidableEq

/-- `handleSubmitOrder`: reject with an error toast when no table or client
type is selected or the cart is empty; when the table has a pending order
compute `itemsToAdd` and either issue the merge request or warn that there is
nothing new; otherwise issue the create-order request with the cart total and
the projected cart lines. -/
def handleSubmitOrder (ordersList : List Order) (st : OrderStep) : SubmitAction :=
  match st.selectedTable, st.clientType with
  | some table, some clientType =>
    if st.orderItems.isEmpty then .validationError
    else
      match findPendingOrder ordersList table.id with
      | some existingOrder =>
        let items := itemsToAdd existingOrder st.orderItems
        if items.isEmpty then .noOpWarning
        else .addItems existingOrder.id items
      | none =>
        .createOrder table.id
          (if clientType == "credit" then (st.selectedClient).map (fun c => c.id) else none)
          (if clientType == "anonymous" then some st.anonymousName
            else if clientType == "manager" then some st.managerName else none)
          (calculateTotal st.orderItems)
          st.notes
          (st.orderItems.map submitItemOf)
  | _, _ => .validationError

/-- `hasPendingOrder` as computed per table button:
`ordersList.some(order => order.tableId === table.id && order.status ===
"pending")`. -/
def hasPendingOrder (ordersList : List Order) (table : Table) : Bool :=
  ordersList.any (fun o => o.tableId == table.id && o.status == "pending")

/-- The three visual states of a table button on the table-selection step. -/
inductive TableView
  | free
  | addable
  | locked
deriving DecidableEq

/-- The table-button styling ternary: green (free) when `table.status ===
'free'`, orange (addable) when occupied with a pending order, red (locked)
otherwise. -/
def tableView (ordersList : List Order) (table : Table) : TableView :=
  if table.status == "free" then .free
  else if hasPendingOrder ordersList table then .addable
  else .locked

/-- The table button's enabled state: `disabled={table.status !== 'free' &&
!hasPendingOrder}`, so the button is selectable iff the table is free or has
a pending order. -/
def tableSelectable (ordersList : List Order) (table : Table) : Bool :=
  !(table.status != "free" && !hasPendingOrder ordersList table)

/-- The add-to-order button's disabled state: `disabled={product.stock <= 0}`. -/
def productAddDisabled (product : Product) : Bool :=
  product.stock ≤ 0

/-- A click on the add-to-order button: a disabled button does nothing,
otherwise `handleProductAdd` runs. -/
def clickProductAdd (product : Product) (st : OrderStep) : OrderStep :=
  if productAddDisabled product then st else handleProductAdd product st

/-- The cart-editing events available on the products step. -/
inductive CartEvent
  | add (product : Product)
  | qty (productId : Nat) (quantity : Int)
  | remove (productId : Nat)
deriving DecidableEq

/-- Apply one cart-editing event to the form state. -/
def applyCartEvent (st : OrderStep) : CartEvent → OrderStep
  | .add product => clickProductAdd product st
  | .qty productId quantity => handleQuantityChange productId quantity st
  | .remove productId => handleProductRemove productId st

/-- Run a sequence of cart-editing events. -/
def runCart (st : OrderStep) (events : List CartEvent) : OrderStep :=
  events.foldl applyCartEvent st

/-- Projection of an order's item list to `{productId, quantity, price}`
lines, the representation on which the server-side merge operates. -/
def orderLines (o : Order) : List SubmitItem :=
  o.items.map (fun item => ⟨item.product.id, item.quantity, item.price⟩)

/-- Modelled from the spec: one step of the server-side merge endpoint
(`POST /api/orders/{id}/items`), whose implementation (the server routes
module) is not among the provided sources.  Per §4.2 of the specification,
for each submitted line: a quantity of 0 or less removes the product's line
entirely; if the product is already present its quantity is replaced with the
submitted absolute quantity; otherwise a new line is appended at the
submitted quantity. -/
def mergeLine (acc : List SubmitItem) (line : SubmitItem) : List SubmitItem :=
  if line.quantity ≤ 0 then
    acc.filter (fun ex => ex.productId != line.productId)
  else if (acc.find? (fun ex => ex.productId == line.productId)).isSome then
    acc.map (fun ex =>
      if ex.productId == line.productId then { ex with quantity := line.quantity }
      else ex)
  else acc ++ [line]

/-- Modelled from the spec: the server-side merge of a submitted items array
into an order's existing lines, one line at a time (§4.2). -/
def mergeLines (existing incoming : List SubmitItem) : List SubmitItem :=
  incoming.foldl mergeLine existing

/-- Total of a line set: `Σ line.price × line.quantity`. -/
def linesTotal (lines : List SubmitItem) : ℚ :=
  lines.foldl (fun total line => total + line.price * line.quantity) 0

/-- Modelled from the spec: the merged order read model after the server-side
merge — the merged line set together with `totalAmount` recomputed as the full
sum over the merged item set (§4.2). -/
structure MergedOrder where
  lines : List SubmitItem
  totalAmount : ℚ
deriving DecidableEq

/-- Modelled from the spec: apply the server-side merge and recompute the
total (§4.2). -/
def mergeOrderModel (existing incoming : List SubmitItem) : MergedOrder :=
  let merged := mergeLines existing incoming
  ⟨merged, linesTotal merged⟩

/-- Quantity recorded for a product id in a line set (first matching line). -/
def pidQuantity (pid : Nat) (lines : List SubmitItem) : Option Int :=
  (lines.find? (fun line => line.productId == pid)).map (fun line => line.quantity)

/-- `SessionStats` read model consumed by the dashboard stats cards. -/
structure SessionStats where
  totalSales : ℚ
  cashInRegister : ℚ
  creditPayments : ℚ
  mobileMoneyPayments : ℚ
  managerConsumption : ℚ
  transactionCount : Nat
  activeCredits : ℚ
  occupiedTables : Nat
  totalTables : Nat
deriving DecidableEq

/-- `Math.round` on the non-negative values at hand: `⌊x + 1/2⌋`. -/
def jsRound (x : ℚ) : ℤ :=
  ⌊x + 1 / 2⌋

/-- Numerator of the occupancy percentage:
`(sessionStats?.occupiedTables || 0)`. -/
def occupancyNum : Option SessionStats → ℚ
  | some s => (s.occupiedTables : ℚ)
  | none => 0

/-- Denominator of the occupancy percentage:
`(sessionStats?.totalTables || 1)` — absent stats and `totalTables = 0` both
fall back to 1. -/
def occupancyDen : Option SessionStats → ℚ
  | some s => if s.totalTables = 0 then 1 else (s.totalTables : ℚ)
  | none => 1

/-- The occupancy figure of `StatsCards`:
`Math.round(((sessionStats?.occupiedTables || 0) /
(sessionStats?.totalTables || 1)) * 100)`. -/
def occupancyPercent (stats : Option SessionStats) : ℤ :=
  jsRound (occupancyNum stats / occupancyDen stats * 100)

section Lemmas

variable {α β : Type}

/-- Filtering by a predicate implied by the search predicate does not change
the result of `find?`. -/
theorem find?_filter_of_imp (p q : α → Bool) (l : List α)
    (h : ∀ x, p x = true → q x = true) : (l.filter q).find? p = l.find? p := by
  induction l with
  | nil => rfl
  | cons a t ih =>
    by_cases hq : q a = true
    · rw [List.filter_cons_of_pos hq]
      by_cases hp : p a = true
      · rw [List.find?_cons_of_pos _ hp, List.find?_cons_of_pos _ hp]
      · rw [List.find?_cons_of_neg _ hp, List.find?_cons_of_neg _ hp, ih]
    · have hp : ¬ p a = true := fun hpa => hq (h a hpa)
      rw [List.filter_cons_of_neg hq, List.find?_cons_of_neg _ hp, ih]

/-- A list whose `f`-image is duplicate-free has exactly one element sharing
`f`-value with a member `c`; filtering by any `Q` conjoined with that
`f`-match keeps `c` alone (or nothing, when `Q c` fails). -/
theorem filter_key_nodup (f : α → Nat) (Q : α → Bool) (l : List α) (c : α)
    (hnd : (l.map f).Nodup) (hc : c ∈ l) :
    l.filter (fun x => (f x == f c) && Q x) = if Q c then [c] else [] := by
  induction l with
  | nil => cases hc
  | cons a t ih =>
    rw [List.map_cons, List.nodup_cons] at hnd
    rcases List.mem_cons.mp hc with rfl | hct
    · have ht : t.filter (fun x => (f x == f c) && Q x) = [] := by
        rw [List.filter_eq_nil_iff]
        intro x hx
        have hfx : f x ≠ f c := by
          intro he
          exact hnd.1 (he ▸ List.mem_map_of_mem f hx)
        simp [hfx]
      by_cases hQ : Q c = true
      · rw [List.filter_cons_of_pos (by simp [hQ]), ht, if_pos hQ]
      · rw [List.filter_cons_of_neg (by simp [hQ]), ht, if_neg hQ]
    · have hfa : f a ≠ f c := by
        intro he
        exact hnd.1 (he ▸ List.mem_map_of_mem f hct)
      rw [List.filter_cons_of_neg (by simp [hfa]), ih hnd.2 hct]

/-- A fold of additions starting from `a` is `a` plus the mapped sum. -/
theorem foldl_add_eq_sum (f : α → ℚ) (l : List α) (a : ℚ) :
    l.foldl (fun total x => total + f x) a = a + (l.map f).sum := by
  induction l generalizing a with
  | nil => simp
  | cons x t ih => simp [ih, add_assoc]

end Lemmas

/-- Replacing a line's quantity keeps its product id. -/
theorem mergeLine_replace_productId (line : SubmitItem) (ex : SubmitItem) :
    (if ex.productId == line.productId then
      { ex with quantity := line.quantity } else ex).productId = ex.productId := by
  split <;> rfl

/-- Key lemma for the modelled merge: after merging one submitted line, the
quantity recorded for a product id is the submitted quantity for that line's
product (absent when the submitted quantity is ≤ 0) and is untouched for
every other product id. -/
theorem pidQuantity_mergeLine (acc : List SubmitItem) (line : SubmitItem) (pid : Nat) :
    pidQuantity pid (mergeLine acc line) =
      if line.productId = pid then
        (if line.quantity ≤ 0 then none else some line.quantity)
      else pidQuantity pid acc := by
  unfold mergeLine
  by_cases hq : line.quantity ≤ 0
  · rw [if_pos hq]
    by_cases hp : line.productId = pid
    · subst hp
      have hnone : (acc.filter (fun ex => ex.productId != line.productId)).find?
          (fun l => l.productId == line.productId) = none := by
        rw [List.find?_eq_none]
        intro x hx
        have hx2 := (List.mem_filter.mp hx).2
        simpa using hx2
      simp [pidQuantity, hnone, hq]
    · rw [if_neg hp]
      unfold pidQuantity
      rw [find?_filter_of_imp]
      intro x hxp
      have hxq : x.productId = pid := by simpa using hxp
      have hxne : x.productId ≠ line.productId := by
        rw [hxq]
        exact fun h => hp h.symm
      simpa using hxne
  · rw [if_neg hq]
    by_cases hfind : (acc.find? (fun ex => ex.productId == line.productId)).isSome
    · rw [if_pos hfind]
      unfold pidQuantity
      rw [List.find?_map]
      have hcomp : ((fun l : SubmitItem => l.productId == pid) ∘
          (fun ex : SubmitItem => if ex.productId == line.productId then
            { ex with quantity := line.quantity } else ex)) =
          (fun ex : SubmitItem => ex.productId == pid) := by
        funext ex
        simp only [Function.comp]
        rw [mergeLine_replace_productId]
      rw [hcomp]
      by_cases hp : line.productId = pid
      · subst hp
        obtain ⟨ex, hex⟩ := Option.isSome_iff_exists.mp hfind
        have hexp : ex.productId = line.productId := by
          simpa using List.find?_some hex
        rw [hex]
        simp [hexp, hq]
      · rw [if_neg hp]
        cases hfd : acc.find? (fun ex : SubmitItem => ex.productId == pid) with
        | none => simp
        | some ex =>
          have hexp : ex.productId = pid := by simpa using List.find?_some hfd
          have hcond : ¬ ex.productId = line.productId := by
            rw [hexp]
            exact fun h => hp h.symm
          simp [hcond]
    · rw [if_neg hfind]
      have hnone : acc.find? (fun ex => ex.productId == line.productId) = none :=
        Option.not_isSome_iff_eq_none.mp hfind
      unfold pidQuantity
      rw [List.find?_append]
      by_cases hp : line.productId = pid
      · subst hp
        rw [hnone]
        simp [List.find?, hq]
      · rw [if_neg hp]
        cases hfd : acc.find? (fun ex : SubmitItem => ex.productId == pid) with
        | none =>
          have hlp : ¬ (line.productId == pid) = true := by simpa using hp
          simp [List.find?, hlp]
        | some ex => simp [hfd]

/-- Merging lines none of which carries a given product id leaves that
product's recorded quantity untouched. -/
theorem pidQuantity_mergeLines_of_not_mem (incoming : List SubmitItem) (pid : Nat)
    (existing : List SubmitItem) (h : ∀ line ∈ incoming, line.productId ≠ pid) :
    pidQuantity pid (mergeLines existing incoming) = pidQuantity pid existing := by
  induction incoming generalizing existing with
  | nil => rfl
  | cons a t ih =>
    have hstep : mergeLines existing (a :: t) = mergeLines (mergeLine existing a) t := rfl
    rw [hstep, ih (mergeLine existing a) (fun l hl => h l (List.mem_cons_of_mem a hl)),
      pidQuantity_mergeLine, if_neg (h a (List.mem_cons_self a t))]

/-- Merging an items array in which exactly one line carries a given product
id records that line's quantity for the product (removing the product when
the quantity is ≤ 0), regardless of the existing lines. -/
theorem pidQuantity_mergeLines_single (incoming : List SubmitItem) (pid : Nat)
    (line : SubmitItem) (existing : List SubmitItem)
    (h : incoming.filter (fun l => l.productId == pid) = [line]) :
    pidQuantity pid (mergeLines existing incoming) =
      if line.quantity ≤ 0 then none else some line.quantity := by
  induction incoming generalizing existing with
  | nil => simp at h
  | cons a t ih =>
    have hstep : mergeLines existing (a :: t) = mergeLines (mergeLine existing a) t := rfl
    by_cases ha : (a.productId == pid) = true
    · rw [@List.filter_cons_of_pos SubmitItem (fun l => l.productId == pid) a t ha] at h
      have ha2 : a = line := (List.cons_eq_cons.mp h).1
      have ht : t.filter (fun l => l.productId == pid) = [] := (List.cons_eq_cons.mp h).2
      have hnot : ∀ l ∈ t, l.productId ≠ pid := by
        intro l hl
        have := List.filter_eq_nil_iff.mp ht l hl
        simpa using this
      rw [hstep, pidQuantity_mergeLines_of_not_mem t pid _ hnot, pidQuantity_mergeLine,
        if_pos (by simpa using ha), ha2]
    · rw [@List.filter_cons_of_neg SubmitItem (fun l => l.productId == pid) a t ha] at h
      rw [hstep]
      exact ih (mergeLine existing a) h

/-- The product-id lookup over an order's projected lines agrees with the
`find?` over its item list that `handleSubmitOrder` performs. -/
theorem pidQuantity_orderLines (o : Order) (pid : Nat) :
    pidQuantity pid (orderLines o) =
      (o.items.find? (fun ex => ex.product.id == pid)).map (fun ex => ex.quantity) := by
  unfold pidQuantity orderLines
  rw [List.find?_map, Option.map_map]
  rfl

/-- The order's projected lines record a quantity for a product id exactly
when the id list that `handleSubmitOrder` builds contains it. -/
theorem contains_iff_pidQuantity (o : Order) (pid : Nat) :
    ((o.items.map (fun item => item.product.id)).contains pid) =
      ((o.items.find? (fun ex => ex.product.id == pid)).isSome) := by
  rw [Bool.eq_iff_iff]
  rw [List.find?_isSome]
  constructor
  · intro hc
    obtain ⟨item, hitem, hid⟩ := List.mem_map.mp (List.elem_iff.mp hc)
    exact ⟨item, hitem, by simpa using hid⟩
  · intro ⟨item, hitem, hid⟩
    exact List.elem_iff.mpr (List.mem_map.mpr ⟨item, hitem, by simpa using hid⟩)

/-- In a cart whose product ids are duplicate-free, projecting the lines that
pass a predicate `P` and then keeping those carrying the product id of a cart
line `c` yields exactly `c`'s projection when `P c` holds, and nothing
otherwise. -/
theorem filter_map_key (cart : List CartItem) (c : CartItem)
    (hnd : (cart.map (fun x => x.product.id)).Nodup) (hc : c ∈ cart)
    (P : CartItem → Bool) :
    ((cart.filter P).map submitItemOf).filter
      (fun s => s.productId == c.product.id) =
      if P c then [submitItemOf c] else [] := by
  induction cart with
  | nil => cases hc
  | cons a t ih =>
    rw [List.map_cons, List.nodup_cons] at hnd
    rcases List.mem_cons.mp hc with rfl | hct
    · have ht : ((t.filter P).map submitItemOf).filter
          (fun s => s.productId == c.product.id) = [] := by
        rw [List.filter_eq_nil_iff]
        intro s hs
        obtain ⟨x, hx, rfl⟩ := List.mem_map.mp hs
        have hxt : x ∈ t := List.mem_of_mem_filter hx
        have hxne : x.product.id ≠ c.product.id := by
          intro he
          exact hnd.1 (he ▸ List.mem_map_of_mem (fun y => y.product.id) hxt)
        simpa [submitItemOf] using hxne
      by_cases hP : P c = true
      · rw [List.filter_cons_of_pos hP, List.map_cons,
          @List.filter_cons_of_pos SubmitItem (fun s => s.productId == c.product.id)
            (submitItemOf c) ((t.filter P).map submitItemOf) (by simp [submitItemOf]),
          ht, if_pos hP]
      · rw [List.filter_cons_of_neg hP, ht, if_neg hP]
    · have hfa : a.product.id ≠ c.product.id := by
        intro he
        exact hnd.1 (he ▸ List.mem_map_of_mem (fun y => y.product.id) hct)
      by_cases hP : P a = true
      · rw [List.filter_cons_of_pos hP, List.map_cons,
          @List.filter_cons_of_neg SubmitItem (fun s => s.productId == c.product.id)
            (submitItemOf a) ((t.filter P).map submitItemOf)
            (by simpa [submitItemOf] using hfa),
          ih hnd.2 hct]
      · rw [List.filter_cons_of_neg hP, ih hnd.2 hct]

/-- Characterization, per cart line, of the items array `handleSubmitOrder`
builds against a pending order: a brand-new product contributes exactly its
projected line; an existing product contributes its projected line exactly
when the cart quantity differs from the order's current quantity; an
unchanged product contributes nothing. -/
theorem itemsToAdd_filter (o : Order) (cart : List CartItem) (c : CartItem)
    (hnd : (cart.map (fun x => x.product.id)).Nodup) (hc : c ∈ cart) :
    (itemsToAdd o cart).filter (fun s => s.productId == c.product.id) =
      if (o.items.map (fun item => item.product.id)).contains c.product.id then
        (match o.items.find? (fun ex => ex.product.id == c.product.id) with
         | some existingItem =>
             if c.quantity != existingItem.quantity then [submitItemOf c] else []
         | none => [])
      else [submitItemOf c] := by
  simp only [itemsToAdd]
  rw [List.filter_append, List.filter_filter, filter_map_key cart c hnd hc,
    filter_map_key cart c hnd hc]
  by_cases hcont :
      ((o.items.map (fun item => item.product.id)).contains c.product.id) = true
  · have hsome : (o.items.find? (fun ex => ex.product.id == c.product.id)).isSome :=
      (contains_iff_pidQuantity o c.product.id) ▸ hcont
    obtain ⟨existingItem, hex⟩ := Option.isSome_iff_exists.mp hsome
    have hmem : ∃ a ∈ o.items, a.product.id = c.product.id :=
      ⟨existingItem, List.mem_of_find?_eq_some hex, by simpa using List.find?_some hex⟩
    have hnall : ¬ ∀ x ∈ o.items, ¬ x.product.id = c.product.id := by
      push_neg
      exact hmem
    by_cases hch : (c.quantity != existingItem.quantity) = true
    · simp [hcont, hex, hch, hmem, hnall]
    · rw [Bool.not_eq_true] at hch
      simp [hcont, hex, hch, hmem, hnall]
  · rw [Bool.not_eq_true] at hcont
    have hnone : ∀ x ∈ o.items, ¬ x.product.id = c.product.id := by
      intro x hx he
      have hm : c.product.id ∈ o.items.map (fun item => item.product.id) :=
        List.mem_map.mpr ⟨x, hx, he⟩
      have := List.elem_iff.mpr hm
      rw [show (o.items.map (fun item => item.product.id)).elem c.product.id =
          (o.items.map (fun item => item.product.id)).contains c.product.id from rfl,
        hcont] at this
      exact Bool.false_ne_true this
    have hnex : ¬ ∃ a ∈ o.items, a.product.id = c.product.id := by
      push_neg
      exact hnone
    simp [hcont, hnone, hnex]

/-- Claim C7: order submission is rejected with a validation failure before
any write when required inputs are missing — whenever no table is selected,
no client type is chosen, or the cart is empty, `handleSubmitOrder` produces
the validation-error outcome (an error toast and no create or merge
request). -/
theorem submit_validation_rejects (ordersList : List Order) (st : OrderStep)
    (h : st.selectedTable = none ∨ st.clientType = none ∨ st.orderItems = []) :
    handleSubmitOrder ordersList st = .validationError := by
  rcases h with h | h | h
  · cases hct : st.clientType <;> simp [handleSubmitOrder, h, hct]
  · cases hst : st.selectedTable <;> simp [handleSubmitOrder, h, hst]
  · cases hst : st.selectedTable <;> cases hct : st.clientType <;>
      simp [handleSubmitOrder, h, hst, hct]

/-- Witness for C7: the freshly reset form (no table selected) is rejected. -/
theorem submit_validation_rejects_witness :
    handleSubmitOrder [] resetOrder = SubmitAction.validationError :=
  submit_validation_rejects [] resetOrder (Or.inl rfl)

/-- Claim C4: when every cart line's product is already on the pending order
at the same quantity (no new products, no changed quantity), submission is a
benign no-op — `handleSubmitOrder` produces the warning outcome, issuing no
merge request and no create request. -/
theorem submit_noop_warning (ordersList : List Order) (st : OrderStep)
    (table : Table) (ct : String) (o : Order)
    (hT : st.selectedTable = some table) (hCT : st.clientType = some ct)
    (hNE : st.orderItems ≠ [])
    (hP : findPendingOrder ordersList table.id = some o)
    (hSame : ∀ c ∈ st.orderItems,
      (o.items.find? (fun ex => ex.product.id == c.product.id)).map
        (fun ex => ex.quantity) = some c.quantity) :
    handleSubmitOrder ordersList st = .noOpWarning := by
  have hfind : ∀ c ∈ st.orderItems, ∃ ex,
      o.items.find? (fun e => e.product.id == c.product.id) = some ex ∧
      ex.quantity = c.quantity := by
    intro c hc
    have hs := hSame c hc
    cases hfd : o.items.find? (fun e => e.product.id == c.product.id) with
    | none => rw [hfd] at hs; simp at hs
    | some ex =>
      rw [hfd] at hs
      exact ⟨ex, rfl, by simpa using hs⟩
  have hA : st.orderItems.filter (fun item =>
      !((o.items.map (fun it => it.product.id)).contains item.product.id)) = [] := by
    rw [List.filter_eq_nil_iff]
    intro x hx
    obtain ⟨ex, hex, hq⟩ := hfind x hx
    simp
    exact ⟨ex, List.mem_of_find?_eq_some hex, by simpa using List.find?_some hex⟩
  have hB : ((st.orderItems.filter (fun item =>
      (o.items.map (fun it => it.product.id)).contains item.product.id)).filter
      (fun item =>
        match o.items.find? (fun ex => ex.product.id == item.product.id) with
        | some existingItem => item.quantity != existingItem.quantity
        | none => false)) = [] := by
    rw [List.filter_eq_nil_iff]
    intro x hx
    obtain ⟨ex, hex, hq⟩ := hfind x (List.mem_of_mem_filter hx)
    rw [hex]
    simp [hq]
  have hempty : itemsToAdd o st.orderItems = [] := by
    simp only [itemsToAdd]
    rw [hA, hB]
    rfl
  unfold handleSubmitOrder
  rw [hT, hCT]
  simp [hNE, hP, hempty]

/-- Witness for C4: resubmitting a cart identical to the pending order's
single line yields the warning and no write. -/
theorem submit_noop_warning_witness :
    handleSubmitOrder
      [⟨1, 2, "pending", none, none, [⟨⟨1, "beer", 5, 10, 1, 1⟩, 2, 5⟩], none⟩]
      ⟨"products", some ⟨2, 2, 4, "main_hall", "occupied"⟩, some "anonymous",
        none, "", "", [⟨⟨1, "beer", 5, 10, 1, 1⟩, 2⟩], ""⟩ =
      SubmitAction.noOpWarning :=
  submit_noop_warning _ _ ⟨2, 2, 4, "main_hall", "occupied"⟩ "anonymous"
    ⟨1, 2, "pending", none, none, [⟨⟨1, "beer", 5, 10, 1, 1⟩, 2, 5⟩], none⟩
    rfl rfl (by decide) (by decide) (by decide)

/-- Claim C2: selecting a table with a pending order routes into add-items
mode — the form jumps to the products step pre-populated with the order's
items — while a table without a pending order starts the normal flow at the
client step; and whenever a pending order exists for the selected table,
submission never issues a create-order request, so no second pending order
originates from table selection. -/
theorem table_selection_routing (ordersList : List Order)
    (creditClientsList : List CreditClient) (table : Table) (prev : OrderStep) :
    (∀ o, findPendingOrder ordersList table.id = some o →
      (handleTableSelection ordersList creditClientsList table prev).step =
          "products" ∧
      (handleTableSelection ordersList creditClientsList table prev).selectedTable =
          some table ∧
      (handleTableSelection ordersList creditClientsList table prev).orderItems =
          o.items.map (fun item => ⟨item.product, item.quantity⟩)) ∧
    (findPendingOrder ordersList table.id = none →
      (handleTableSelection ordersList creditClientsList table prev).step =
          "client" ∧
      (handleTableSelection ordersList creditClientsList table prev).selectedTable =
          some table) ∧
    (∀ o st, findPendingOrder ordersList table.id = some o →
      st.selectedTable = some table →
      ∀ tid cid cn amt nts its,
        handleSubmitOrder ordersList st ≠
          SubmitAction.createOrder tid cid cn amt nts its) := by
  refine ⟨?_, ?_, ?_⟩
  · intro o h
    unfold handleTableSelection
    rw [h]
    exact ⟨rfl, rfl, rfl⟩
  · intro h
    unfold handleTableSelection
    rw [h]
    exact ⟨rfl, rfl⟩
  · intro o st h hT tid cid cn amt nts its heq
    unfold handleSubmitOrder at heq
    rw [hT] at heq
    cases hct : st.clientType with
    | none => rw [hct] at heq; simp at heq
    | some ct =>
      rw [hct] at heq
      by_cases hie : st.orderItems.isEmpty
      · simp [hie] at heq
      · by_cases hit : (itemsToAdd o st.orderItems).isEmpty <;>
          simp [hie, h, hit] at heq

/-- Witness for C2: with one pending order on table 2, selection jumps to the
products step pre-populated; with no orders it goes to the client step; and
submission against the occupied table is never a create request. -/
theorem table_selection_routing_witness :
    (handleTableSelection
      [⟨1, 2, "pending", none, none, [⟨⟨1, "beer", 5, 10, 1, 1⟩, 2, 5⟩], none⟩] []
      ⟨2, 2, 4, "main_hall", "occupied"⟩ resetOrder).step = "products" ∧
    (handleTableSelection [] [] ⟨2, 2, 4, "main_hall", "occupied"⟩ resetOrder).step =
      "client" ∧
    handleSubmitOrder
      [⟨1, 2, "pending", none, none, [⟨⟨1, "beer", 5, 10, 1, 1⟩, 2, 5⟩], none⟩]
      ⟨"products", some ⟨2, 2, 4, "main_hall", "occupied"⟩, some "anonymous",
        none, "", "", [⟨⟨1, "beer", 5, 10, 1, 1⟩, 3⟩], ""⟩ ≠
      SubmitAction.createOrder 2 none (some "") 15 "" [⟨1, 3, 5⟩] :=
  ⟨((table_selection_routing
      [⟨1, 2, "pending", none, none, [⟨⟨1, "beer", 5, 10, 1, 1⟩, 2, 5⟩], none⟩] []
      ⟨2, 2, 4, "main_hall", "occupied"⟩ resetOrder).1 _ rfl).1,
    ((table_selection_routing [] [] ⟨2, 2, 4, "main_hall", "occupied"⟩
      resetOrder).2.1 rfl).1,
    (table_selection_routing
      [⟨1, 2, "pending", none, none, [⟨⟨1, "beer", 5, 10, 1, 1⟩, 2, 5⟩], none⟩] []
      ⟨2, 2, 4, "main_hall", "occupied"⟩ resetOrder).2.2
      ⟨1, 2, "pending", none, none, [⟨⟨1, "beer", 5, 10, 1, 1⟩, 2, 5⟩], none⟩
      ⟨"products", some ⟨2, 2, 4, "main_hall", "occupied"⟩, some "anonymous",
        none, "", "", [⟨⟨1, "beer", 5, 10, 1, 1⟩, 3⟩], ""⟩
      rfl rfl 2 none (some "") 15 "" [⟨1, 3, 5⟩]⟩

/-- Claim C9: the billing mode of an existing pending order is inferred by a
fixed-name proxy — a (truthy) `creditClientId` yields `credit`; otherwise a
client name whose lowercasing is exactly `"carl malack"` or `"lucelle reis"`
yields `manager`; every other client name, including none, yields
`anonymous`. -/
theorem inferred_client_type (ordersList : List Order)
    (creditClientsList : List CreditClient) (table : Table) (prev : OrderStep)
    (o : Order) (hP : findPendingOrder ordersList table.id = some o) :
    (∀ cid, o.creditClientId = some cid → cid ≠ 0 →
      (handleTableSelection ordersList creditClientsList table prev).clientType =
        some "credit") ∧
    ((o.creditClientId = none ∨ o.creditClientId = some 0) →
      ∀ n, o.clientName = some n →
        (toLowerStr n = "carl malack" ∨ toLowerStr n = "lucelle reis") →
        (handleTableSelection ordersList creditClientsList table prev).clientType =
          some "manager") ∧
    ((o.creditClientId = none ∨ o.creditClientId = some 0) →
      (o.clientName = none ∨ ∃ n, o.clientName = some n ∧
        toLowerStr n ≠ "carl malack" ∧ toLowerStr n ≠ "lucelle reis") →
      (handleTableSelection ordersList creditClientsList table prev).clientType =
        some "anonymous") := by
  unfold handleTableSelection
  rw [hP]
  refine ⟨?_, ?_, ?_⟩
  · intro cid hcid hne
    have ht : truthyId o.creditClientId = true := by
      rw [hcid]
      simpa [truthyId] using hne
    simp [ht]
  · intro hcc n hn hmgr
    have ht : truthyId o.creditClientId = false := by
      rcases hcc with h | h <;> simp [h, truthyId]
    have hne : n ≠ "" := by
      intro he
      subst he
      rcases hmgr with h | h <;> exact absurd h (by decide)
    have htn : truthyName o.clientName = true := by
      rw [hn]
      simpa [truthyName] using hne
    have hm : isManagerName ((o.clientName).getD "") = true := by
      rw [hn]
      rcases hmgr with h | h <;> simp [isManagerName, h]
    simp [ht, htn, hm]
  · intro hcc hname
    have ht : truthyId o.creditClientId = false := by
      rcases hcc with h | h <;> simp [h, truthyId]
    rcases hname with h | ⟨n, hn, h1, h2⟩
    · simp [ht, h, truthyName]
    · have hm : isManagerName ((o.clientName).getD "") = false := by
        rw [hn]
        simp [isManagerName, h1, h2]
      simp [ht, hm]

/-- Witness for C9: a credit order, a manager-named order (`"Carl Malack"`)
and a plainly named order are classified credit, manager and anonymous
respectively. -/
theorem inferred_client_type_witness :
    (handleTableSelection [⟨1, 2, "pending", some 9, none, [], none⟩]
      [] ⟨2, 2, 4, "main_hall", "occupied"⟩ resetOrder).clientType =
      some "credit" ∧
    (handleTableSelection [⟨1, 2, "pending", none, some "Carl Malack", [], none⟩]
      [] ⟨2, 2, 4, "main_hall", "occupied"⟩ resetOrder).clientType =
      some "manager" ∧
    (handleTableSelection [⟨1, 2, "pending", none, some "Ana", [], none⟩]
      [] ⟨2, 2, 4, "main_hall", "occupied"⟩ resetOrder).clientType =
      some "anonymous" :=
  ⟨(inferred_client_type [⟨1, 2, "pending", some 9, none, [], none⟩] []
      ⟨2, 2, 4, "main_hall", "occupied"⟩ resetOrder
      ⟨1, 2, "pending", some 9, none, [], none⟩ rfl).1 9 rfl (by decide),
    (inferred_client_type [⟨1, 2, "pending", none, some "Carl Malack", [], none⟩] []
      ⟨2, 2, 4, "main_hall", "occupied"⟩ resetOrder
      ⟨1, 2, "pending", none, some "Carl Malack", [], none⟩ rfl).2.1
      (Or.inl rfl) "Carl Malack" rfl (Or.inl (by decide)),
    (inferred_client_type [⟨1, 2, "pending", none, some "Ana", [], none⟩] []
      ⟨2, 2, 4, "main_hall", "occupied"⟩ resetOrder
      ⟨1, 2, "pending", none, some "Ana", [], none⟩ rfl).2.2
      (Or.inl rfl) (Or.inr ⟨"Ana", rfl, by decide, by decide⟩)⟩

/-- Counterexample to C6 as stated: a table whose cached status is
`"occupied"` and whose only order is `"preparing"` has no pending order, yet
it is not reported free — it is rendered locked.  So "free iff no pending
order" fails right-to-left on the code. -/
theorem tableView_free_iff_pending_cex :
    hasPendingOrder [⟨1, 1, "preparing", none, none, [], none⟩]
      ⟨1, 1, 4, "main_hall", "occupied"⟩ = false ∧
    tableView [⟨1, 1, "preparing", none, none, [], none⟩]
      ⟨1, 1, 4, "main_hall", "occupied"⟩ = TableView.locked ∧
    tableView [⟨1, 1, "preparing", none, none, [], none⟩]
      ⟨1, 1, 4, "main_hall", "occupied"⟩ ≠ TableView.free := by
  refine ⟨rfl, rfl, ?_⟩
  decide

/-- Claim C6 (amended): a table is reported free iff its cached status field
is `"free"`; among non-free tables, one with a pending order is rendered
occupied-but-addable and stays selectable for the merge path, while one with
no pending order (for instance whose order is `preparing` or `ready`) is
rendered locked and cannot be selected; and the pending-order flag holds
exactly when some order references the table with status `"pending"`. -/
theorem tableView_characterization (ordersList : List Order) (table : Table) :
    (tableView ordersList table = TableView.free ↔ table.status = "free") ∧
    (hasPendingOrder ordersList table = true ↔
      ∃ o ∈ ordersList, o.tableId = table.id ∧ o.status = "pending") ∧
    (table.status ≠ "free" → hasPendingOrder ordersList table = true →
      tableView ordersList table = TableView.addable ∧
      tableSelectable ordersList table = true) ∧
    (table.status ≠ "free" → hasPendingOrder ordersList table = false →
      tableView ordersList table = TableView.locked ∧
      tableSelectable ordersList table = false) ∧
    (tableSelectable ordersList table = true ↔
      (table.status = "free" ∨ hasPendingOrder ordersList table = true)) := by
  refine ⟨?_, ?_, ?_, ?_, ?_⟩
  · constructor
    · intro h
      by_contra hst
      have hst' : (table.status == "free") = false := by
        simpa using hst
      unfold tableView at h
      rw [hst'] at h
      simp at h
      rcases hpo : hasPendingOrder ordersList table <;> rw [hpo] at h <;> simp at h
    · intro h
      unfold tableView
      simp [h]
  · unfold hasPendingOrder
    rw [List.any_eq_true]
    constructor
    · intro ⟨o, ho, hb⟩
      exact ⟨o, ho, by simpa using hb⟩
    · intro ⟨o, ho, h1, h2⟩
      exact ⟨o, ho, by simp [h1, h2]⟩
  · intro hst hpo
    have hst' : (table.status == "free") = false := by simpa using hst
    constructor
    · unfold tableView
      rw [hst']
      simp [hpo]
    · unfold tableSelectable
      simp [hpo]
  · intro hst hpo
    have hst' : (table.status == "free") = false := by simpa using hst
    constructor
    · unfold tableView
      rw [hst']
      simp [hpo]
    · unfold tableSelectable
      simp [hpo, hst]
  · unfold tableSelectable
    by_cases hst : table.status = "free"
    · simp [hst]
    · simp [hst]

/-- Witness for C6 (amended): a free table is reported free; an occupied
table with a pending order is addable and selectable; an occupied table with
only a preparing order is locked and unselectable. -/
theorem tableView_characterization_witness :
    tableView [] ⟨1, 1, 4, "main_hall", "free"⟩ = TableView.free ∧
    tableView [⟨1, 2, "pending", none, none, [], none⟩]
      ⟨2, 2, 4, "main_hall", "occupied"⟩ = TableView.addable ∧
    tableSelectable [⟨1, 2, "pending", none, none, [], none⟩]
      ⟨2, 2, 4, "main_hall", "occupied"⟩ = true ∧
    tableView [⟨1, 3, "ready", none, none, [], none⟩]
      ⟨3, 3, 4, "main_hall", "occupied"⟩ = TableView.locked ∧
    tableSelectable [⟨1, 3, "ready", none, none, [], none⟩]
      ⟨3, 3, 4, "main_hall", "occupied"⟩ = false :=
  ⟨(tableView_characterization [] ⟨1, 1, 4, "main_hall", "free"⟩).1.mpr rfl,
    ((tableView_characterization [⟨1, 2, "pending", none, none, [], none⟩]
      ⟨2, 2, 4, "main_hall", "occupied"⟩).2.2.1 (by decide) (by decide)).1,
    ((tableView_characterization [⟨1, 2, "pending", none, none, [], none⟩]
      ⟨2, 2, 4, "main_hall", "occupied"⟩).2.2.1 (by decide) (by decide)).2,
    ((tableView_characterization [⟨1, 3, "ready", none, none, [], none⟩]
      ⟨3, 3, 4, "main_hall", "occupied"⟩).2.2.2.1 (by decide) (by decide)).1,
    ((tableView_characterization [⟨1, 3, "ready", none, none, [], none⟩]
      ⟨3, 3, 4, "main_hall", "occupied"⟩).2.2.2.1 (by decide) (by decide)).2⟩

/-- Claim C10: the occupancy figure of the stats cards is always
well-defined — its denominator is at least 1 (it falls back to 1 when stats
are absent or `totalTables` is 0, so the division is never by zero), and the
figure is 0 whenever no tables are occupied. -/
theorem occupancy_well_defined (stats : Option SessionStats) :
    1 ≤ occupancyDen stats ∧
    (∀ s, stats = some s → s.totalTables = 0 → occupancyDen stats = 1) ∧
    occupancyDen none = 1 ∧
    (occupancyNum stats = 0 → occupancyPercent stats = 0) := by
  refine ⟨?_, ?_, rfl, ?_⟩
  · cases stats with
    | none => simp [occupancyDen]
    | some s =>
      simp only [occupancyDen]
      by_cases h : s.totalTables = 0
      · simp [h]
      · rw [if_neg h]
        exact_mod_cast Nat.one_le_iff_ne_zero.mpr h
  · intro s hs h0
    subst hs
    simp [occupancyDen, h0]
  · intro h0
    unfold occupancyPercent
    rw [h0]
    unfold jsRound
    norm_num

/-- Witness for C10: with zero tables and zero occupancy the figure is 0
(denominator fallback 1), and the absent-stats denominator is 1. -/
theorem occupancy_well_defined_witness :
    occupancyDen (some ⟨0, 0, 0, 0, 0, 0, 0, 0, 0⟩) = 1 ∧
    occupancyPercent (some ⟨0, 0, 0, 0, 0, 0, 0, 0, 0⟩) = 0 ∧
    occupancyDen none = 1 :=
  ⟨(occupancy_well_defined (some ⟨0, 0, 0, 0, 0, 0, 0, 0, 0⟩)).2.1 _ rfl rfl,
    (occupancy_well_defined (some ⟨0, 0, 0, 0, 0, 0, 0, 0, 0⟩)).2.2.2 rfl,
    (occupancy_well_defined none).2.2.1⟩

/-- Claim C8: the add-to-order button is disabled exactly when the product's
stock is ≤ 0, and consequently cart editing through the products step never
creates a cart line whose product is out of stock: every reachable cart state
from a state with only in-stock lines again has only in-stock lines. -/
theorem stock_gate (p : Product) (st : OrderStep) (events : List CartEvent) :
    (productAddDisabled p = true ↔ p.stock ≤ 0) ∧
    ((∀ item ∈ st.orderItems, 0 < item.product.stock) →
      ∀ item ∈ (runCart st events).orderItems, 0 < item.product.stock) := by
  constructor
  · unfold productAddDisabled
    exact decide_eq_true_iff
  · intro hst
    induction events generalizing st with
    | nil => exact hst
    | cons e t ih =>
      have hstep : ∀ item ∈ (applyCartEvent st e).orderItems,
          0 < item.product.stock := by
        cases e with
        | add q =>
          simp only [applyCartEvent]
          unfold clickProductAdd
          by_cases hd : productAddDisabled q = true
          · rw [if_pos hd]
            exact hst
          · rw [if_neg hd]
            have hq : 0 < q.stock := by
              unfold productAddDisabled at hd
              simpa using not_le.mp (by simpa using hd)
            unfold handleProductAdd
            by_cases hf : ((st.orderItems.find?
                (fun item => item.product.id == q.id)).isSome) = true
            · rw [if_pos hf]
              intro item hitem
              obtain ⟨x, hx, hxe⟩ := List.mem_map.mp hitem
              have hxs := hst x hx
              by_cases hxp : (x.product.id == q.id) = true
              · rw [if_pos hxp] at hxe
                rw [← hxe]
                exact hxs
              · rw [if_neg hxp] at hxe
                rw [← hxe]
                exact hxs
            · rw [if_neg hf]
              intro item hitem
              rcases List.mem_append.mp hitem with hm | hm
              · exact hst item hm
              · rw [List.mem_singleton.mp hm]
                exact hq
        | qty pid q =>
          simp only [applyCartEvent]
          unfold handleQuantityChange
          by_cases hq0 : q ≤ 0
          · rw [if_pos hq0]
            unfold handleProductRemove
            intro item hitem
            exact hst item (List.mem_of_mem_filter hitem)
          · rw [if_neg hq0]
            intro item hitem
            obtain ⟨x, hx, hxe⟩ := List.mem_map.mp hitem
            have hxs := hst x hx
            by_cases hxp : (x.product.id == pid) = true
            · rw [if_pos hxp] at hxe
              rw [← hxe]
              exact hxs
            · rw [if_neg hxp] at hxe
              rw [← hxe]
              exact hxs
        | remove pid =>
          simp only [applyCartEvent]
          unfold handleProductRemove
          intro item hitem
          exact hst item (List.mem_of_mem_filter hitem)
      exact ih (applyCartEvent st e) hstep

/-- Witness for C8: clicking add on an out-of-stock product leaves the empty
cart empty, and every line produced by a sequence of clicks on an in-stock
product has positive stock. -/
theorem stock_gate_witness :
    (productAddDisabled ⟨1, "soldout", 5, 0, 1, 1⟩ = true ↔
      (⟨1, "soldout", 5, 0, 1, 1⟩ : Product).stock ≤ 0) ∧
    ∀ item ∈ (runCart resetOrder
      [CartEvent.add ⟨1, "soldout", 5, 0, 1, 1⟩,
        CartEvent.add ⟨2, "beer", 5, 7, 1, 1⟩]).orderItems,
      0 < item.product.stock :=
  ⟨(stock_gate ⟨1, "soldout", 5, 0, 1, 1⟩ resetOrder []).1,
    (stock_gate ⟨1, "soldout", 5, 0, 1, 1⟩ resetOrder
      [CartEvent.add ⟨1, "soldout", 5, 0, 1, 1⟩,
        CartEvent.add ⟨2, "beer", 5, 7, 1, 1⟩]).2 (by decide)⟩

/-- Claim C3: driving a product's quantity to 0 or less removes its line
from the cart entirely, and merging a line with quantity 0 leaves the
resulting order without that product. -/
theorem zero_quantity_removes (productId : Nat) (quantity : Int)
    (st : OrderStep) (existing : List SubmitItem) (pid : Nat) (pr : ℚ) :
    (quantity ≤ 0 →
      ∀ item ∈ (handleQuantityChange productId quantity st).orderItems,
        item.product.id ≠ productId) ∧
    (∀ line ∈ mergeLines existing [⟨pid, 0, pr⟩], line.productId ≠ pid) ∧
    pidQuantity pid (mergeLines existing [⟨pid, 0, pr⟩]) = none := by
  have hml : mergeLines existing [(⟨pid, 0, pr⟩ : SubmitItem)] =
      existing.filter (fun ex => ex.productId != pid) := by
    show mergeLine existing ⟨pid, 0, pr⟩ = _
    unfold mergeLine
    rw [if_pos (le_refl (0 : Int))]
  refine ⟨?_, ?_, ?_⟩
  · intro hq item hitem
    unfold handleQuantityChange at hitem
    rw [if_pos hq] at hitem
    unfold handleProductRemove at hitem
    have hmem := (List.mem_filter.mp hitem).2
    simpa using hmem
  · intro line hline
    rw [hml] at hline
    have hmem := (List.mem_filter.mp hline).2
    simpa using hmem
  · rw [show mergeLines existing [(⟨pid, 0, pr⟩ : SubmitItem)] =
        mergeLine existing ⟨pid, 0, pr⟩ from rfl,
      pidQuantity_mergeLine]
    simp

/-- Witness for C3: a quantity change to 0 removes product 1 from a
single-line cart, and merging quantity 0 for product 1 into an order holding
it removes it. -/
theorem zero_quantity_removes_witness :
    (∀ item ∈ (handleQuantityChange 1 0
      ⟨"products", none, none, none, "", "",
        [⟨⟨1, "beer", 5, 10, 1, 1⟩, 2⟩], ""⟩).orderItems,
      item.product.id ≠ 1) ∧
    pidQuantity 1 (mergeLines [⟨1, 2, 5⟩] [⟨1, 0, 5⟩]) = none :=
  ⟨(zero_quantity_removes 1 0
      ⟨"products", none, none, none, "", "",
        [⟨⟨1, "beer", 5, 10, 1, 1⟩, 2⟩], ""⟩ [⟨1, 2, 5⟩] 1 5).1 (by decide),
    (zero_quantity_removes 1 0
      ⟨"products", none, none, none, "", "",
        [⟨⟨1, "beer", 5, 10, 1, 1⟩, 2⟩], ""⟩ [⟨1, 2, 5⟩] 1 5).2.2⟩

/-- Claim C5: the cart total is exactly the sum of snapshot price times
quantity over the cart lines; the `totalAmount` carried by a create-order
request equals that sum over the submitted items; and the modelled post-merge
total equals the sum over the resulting item set. -/
theorem total_is_sum (ordersList : List Order) (st : OrderStep)
    (existing incoming : List SubmitItem) :
    (calculateTotal st.orderItems =
      (st.orderItems.map (fun item => item.product.price * (item.quantity : ℚ))).sum) ∧
    (∀ tid cid cn amt nts its,
      handleSubmitOrder ordersList st =
        SubmitAction.createOrder tid cid cn amt nts its →
      amt = linesTotal its ∧
      amt = (its.map (fun line => line.price * (line.quantity : ℚ))).sum) ∧
    ((mergeOrderModel existing incoming).totalAmount =
      ((mergeOrderModel existing incoming).lines.map
        (fun line => line.price * (line.quantity : ℚ))).sum) := by
  have hlt : ∀ ls : List SubmitItem,
      linesTotal ls = (ls.map (fun line => line.price * (line.quantity : ℚ))).sum := by
    intro ls
    unfold linesTotal
    rw [foldl_add_eq_sum, zero_add]
  have hct : calculateTotal st.orderItems =
      (st.orderItems.map (fun item => item.product.price * (item.quantity : ℚ))).sum := by
    unfold calculateTotal
    rw [foldl_add_eq_sum, zero_add]
  refine ⟨hct, ?_, hlt _⟩
  intro tid cid cn amt nts its heq
  unfold handleSubmitOrder at heq
  cases hst : st.selectedTable with
  | none =>
    rw [hst] at heq
    cases hctp : st.clientType <;> rw [hctp] at heq <;> simp at heq
  | some table =>
    cases hctp : st.clientType with
    | none => rw [hst, hctp] at heq; simp at heq
    | some ct =>
      rw [hst, hctp] at heq
      by_cases hie : st.orderItems.isEmpty
      · simp [hie] at heq
      · cases hfp : findPendingOrder ordersList table.id with
        | some o =>
          by_cases hit : (itemsToAdd o st.orderItems).isEmpty <;>
            simp [hie, hfp, hit] at heq
        | none =>
          simp [hie, hfp] at heq
          have hamt : amt = calculateTotal st.orderItems := heq.2.2.2.1.symm
          have hits : its = st.orderItems.map submitItemOf := heq.2.2.2.2.2.symm
          constructor
          · rw [hamt, hits, hlt, hct, List.map_map]
            rfl
          · rw [hamt, hits, hct, List.map_map]
            rfl

/-- Witness for C5: a one-line cart (2 × price 5) submits a create-order
request whose total 10 equals the sum over the submitted items. -/
theorem total_is_sum_witness :
    (10 : ℚ) = linesTotal [⟨1, 2, 5⟩] ∧
    (10 : ℚ) = (([⟨1, 2, 5⟩] : List SubmitItem).map
      (fun line => line.price * (line.quantity : ℚ))).sum := by
  have h : handleSubmitOrder []
      ⟨"products", some ⟨6, 6, 4, "main_hall", "free"⟩, some "anonymous",
        none, "Bob", "", [⟨⟨1, "beer", 5, 10, 1, 1⟩, 2⟩], ""⟩ =
      SubmitAction.createOrder 6 none (some "Bob") 10 "" [⟨1, 2, 5⟩] := by
    norm_num [handleSubmitOrder, findPendingOrder, calculateTotal, submitItemOf]
  exact (total_is_sum []
    ⟨"products", some ⟨6, 6, 4, "main_hall", "free"⟩, some "anonymous",
      none, "Bob", "", [⟨⟨1, "beer", 5, 10, 1, 1⟩, 2⟩], ""⟩ [] []).2.1
    6 none (some "Bob") 10 "" [⟨1, 2, 5⟩] h

/-- Counterexample to C1 as stated: against a pending order holding product 1
at quantity 5, submitting a cart that still lists product 1 at quantity 5
(plus new product 2) issues a request that omits product 1 entirely — so not
"every cart line whose product is already on the order" is sent; unchanged
lines are skipped. -/
theorem submit_merge_absolute_cex :
    ((⟨⟨1, "beer", 5, 10, 1, 1⟩, 5⟩ : CartItem) ∈
      ([⟨⟨1, "beer", 5, 10, 1, 1⟩, 5⟩, ⟨⟨2, "coke", 3, 10, 1, 1⟩, 2⟩] :
        List CartItem)) ∧
    pidQuantity 1 (orderLines ⟨7, 4, "pending", none, none,
      [⟨⟨1, "beer", 5, 10, 1, 1⟩, 5, 5⟩], none⟩) = some 5 ∧
    handleSubmitOrder
      [⟨7, 4, "pending", none, none, [⟨⟨1, "beer", 5, 10, 1, 1⟩, 5, 5⟩], none⟩]
      ⟨"products", some ⟨4, 4, 4, "main_hall", "occupied"⟩, some "anonymous",
        none, "", "",
        [⟨⟨1, "beer", 5, 10, 1, 1⟩, 5⟩, ⟨⟨2, "coke", 3, 10, 1, 1⟩, 2⟩], ""⟩ =
      SubmitAction.addItems 7 [⟨2, 2, 3⟩] ∧
    ∀ s ∈ ([⟨2, 2, 3⟩] : List SubmitItem), s.productId ≠ 1 := by
  refine ⟨by decide, by decide, by decide, by decide⟩

/-- Claim C1 (amended): submitting a cart against a table with a pending
order sends, with the cart quantity as the new absolute quantity, every cart
line whose product is on the order at a *different* quantity; sends every
cart line whose product is not yet on the order at the cart quantity; omits
cart lines whose quantity is unchanged; and in the merged order every cart
line's product carries exactly the cart quantity — replacing, never adding
to, the existing quantity (an existing 5 merged with a cart 3 yields 3, not
8). -/
theorem submit_merge_absolute (ordersList : List Order) (st : OrderStep)
    (table : Table) (ct : String) (o : Order)
    (hT : st.selectedTable = some table) (hCT : st.clientType = some ct)
    (hNE : st.orderItems ≠ [])
    (hP : findPendingOrder ordersList table.id = some o)
    (hnd : (st.orderItems.map (fun x => x.product.id)).Nodup) :
    (∀ c ∈ st.orderItems, ∀ q0,
      pidQuantity c.product.id (orderLines o) = some q0 → c.quantity ≠ q0 →
      submitItemOf c ∈ itemsToAdd o st.orderItems) ∧
    (∀ c ∈ st.orderItems,
      pidQuantity c.product.id (orderLines o) = none →
      submitItemOf c ∈ itemsToAdd o st.orderItems) ∧
    (∀ c ∈ st.orderItems,
      pidQuantity c.product.id (orderLines o) = some c.quantity →
      ∀ s ∈ itemsToAdd o st.orderItems, s.productId ≠ c.product.id) ∧
    (∀ c ∈ st.orderItems, 0 < c.quantity →
      pidQuantity c.product.id
        (mergeLines (orderLines o) (itemsToAdd o st.orderItems)) =
        some c.quantity) ∧
    (itemsToAdd o st.orderItems ≠ [] →
      handleSubmitOrder ordersList st =
        SubmitAction.addItems o.id (itemsToAdd o st.orderItems)) := by
  have hfind : ∀ c : CartItem, ∀ q0,
      pidQuantity c.product.id (orderLines o) = some q0 →
      ∃ ex, o.items.find? (fun e => e.product.id == c.product.id) = some ex ∧
        ex.quantity = q0 := by
    intro c q0 h
    rw [pidQuantity_orderLines] at h
    cases hfd : o.items.find? (fun e => e.product.id == c.product.id) with
    | none => rw [hfd] at h; simp at h
    | some ex =>
      rw [hfd] at h
      exact ⟨ex, rfl, by simpa using h⟩
  have hkeyN : ∀ c ∈ st.orderItems,
      pidQuantity c.product.id (orderLines o) = none →
      (itemsToAdd o st.orderItems).filter
        (fun s => s.productId == c.product.id) = [submitItemOf c] := by
    intro c hc h
    rw [pidQuantity_orderLines] at h
    cases hfd : o.items.find? (fun e => e.product.id == c.product.id) with
    | some ex => rw [hfd] at h; simp at h
    | none =>
      have hcont : (o.items.map (fun item => item.product.id)).contains
          c.product.id = false := by
        rw [contains_iff_pidQuantity, hfd]
        rfl
      rw [itemsToAdd_filter o st.orderItems c hnd hc, hcont]
      simp
  have hkeyC : ∀ c ∈ st.orderItems, ∀ q0,
      pidQuantity c.product.id (orderLines o) = some q0 → c.quantity ≠ q0 →
      (itemsToAdd o st.orderItems).filter
        (fun s => s.productId == c.product.id) = [submitItemOf c] := by
    intro c hc q0 h hne
    obtain ⟨ex, hfd, hq⟩ := hfind c q0 h
    have hcont : (o.items.map (fun item => item.product.id)).contains
        c.product.id = true := by
      rw [contains_iff_pidQuantity, hfd]
      rfl
    have hbne : (c.quantity != ex.quantity) = true := by
      rw [hq]
      simpa using hne
    rw [itemsToAdd_filter o st.orderItems c hnd hc, hcont, hfd]
    simp [hbne]
  have hkeyU : ∀ c ∈ st.orderItems,
      pidQuantity c.product.id (orderLines o) = some c.quantity →
      (itemsToAdd o st.orderItems).filter
        (fun s => s.productId == c.product.id) = [] := by
    intro c hc h
    obtain ⟨ex, hfd, hq⟩ := hfind c c.quantity h
    have hcont : (o.items.map (fun item => item.product.id)).contains
        c.product.id = true := by
      rw [contains_iff_pidQuantity, hfd]
      rfl
    have hbne : (c.quantity != ex.quantity) = false := by
      rw [hq]
      simp
    rw [itemsToAdd_filter o st.orderItems c hnd hc, hcont, hfd]
    simp [hbne]
  refine ⟨?_, ?_, ?_, ?_, ?_⟩
  · intro c hc q0 hq hne
    have hmem : submitItemOf c ∈
        (itemsToAdd o st.orderItems).filter
          (fun s => s.productId == c.product.id) := by
      rw [hkeyC c hc q0 hq hne]
      exact List.mem_singleton_self _
    exact List.mem_of_mem_filter hmem
  · intro c hc hq
    have hmem : submitItemOf c ∈
        (itemsToAdd o st.orderItems).filter
          (fun s => s.productId == c.product.id) := by
      rw [hkeyN c hc hq]
      exact List.mem_singleton_self _
    exact List.mem_of_mem_filter hmem
  · intro c hc hq s hs heq
    have hmem : s ∈ (itemsToAdd o st.orderItems).filter
        (fun s => s.productId == c.product.id) :=
      List.mem_filter.mpr ⟨hs, by simp [heq]⟩
    rw [hkeyU c hc hq] at hmem
    cases hmem
  · intro c hc hpos
    cases hq : pidQuantity c.product.id (orderLines o) with
    | none =>
      rw [pidQuantity_mergeLines_single (itemsToAdd o st.orderItems)
        c.product.id (submitItemOf c) (orderLines o) (hkeyN c hc hq)]
      rw [if_neg (by simpa [submitItemOf] using not_le.mpr hpos)]
      rfl
    | some q0 =>
      by_cases hne : c.quantity = q0
      · subst hne
        have hnot : ∀ line ∈ itemsToAdd o st.orderItems,
            line.productId ≠ c.product.id := by
          intro line hline
          have := List.filter_eq_nil_iff.mp (hkeyU c hc hq) line hline
          simpa using this
        rw [pidQuantity_mergeLines_of_not_mem (itemsToAdd o st.orderItems)
          c.product.id (orderLines o) hnot, hq]
      · rw [pidQuantity_mergeLines_single (itemsToAdd o st.orderItems)
          c.product.id (submitItemOf c) (orderLines o) (hkeyC c hc q0 hq hne)]
        rw [if_neg (by simpa [submitItemOf] using not_le.mpr hpos)]
        rfl
  · intro hits
    unfold handleSubmitOrder
    rw [hT, hCT]
    simp [hNE, hP, hits]

/-- Witness for C1 (amended): order has product 1 at 5; the cart lists
product 1 at 3 and new product 2 at 2; the changed line is sent at absolute
quantity 3, the merged order records 3 (not 8) for product 1, and the merge
request carries exactly the computed items. -/
theorem submit_merge_absolute_witness :
    submitItemOf ⟨⟨1, "beer", 5, 10, 1, 1⟩, 3⟩ ∈
      itemsToAdd
        ⟨7, 4, "pending", none, none, [⟨⟨1, "beer", 5, 10, 1, 1⟩, 5, 5⟩], none⟩
        [⟨⟨1, "beer", 5, 10, 1, 1⟩, 3⟩, ⟨⟨2, "coke", 3, 10, 1, 1⟩, 2⟩] ∧
    pidQuantity 1 (mergeLines
      (orderLines ⟨7, 4, "pending", none, none,
        [⟨⟨1, "beer", 5, 10, 1, 1⟩, 5, 5⟩], none⟩)
      (itemsToAdd
        ⟨7, 4, "pending", none, none, [⟨⟨1, "beer", 5, 10, 1, 1⟩, 5, 5⟩], none⟩
        [⟨⟨1, "beer", 5, 10, 1, 1⟩, 3⟩, ⟨⟨2, "coke", 3, 10, 1, 1⟩, 2⟩])) =
      some 3 ∧
    handleSubmitOrder
      [⟨7, 4, "pending", none, none, [⟨⟨1, "beer", 5, 10, 1, 1⟩, 5, 5⟩], none⟩]
      ⟨"products", some ⟨4, 4, 4, "main_hall", "occupied"⟩, some "anonymous",
        none, "", "",
        [⟨⟨1, "beer", 5, 10, 1, 1⟩, 3⟩, ⟨⟨2, "coke", 3, 10, 1, 1⟩, 2⟩], ""⟩ =
      SubmitAction.addItems 7
        (itemsToAdd
          ⟨7, 4, "pending", none, none, [⟨⟨1, "beer", 5, 10, 1, 1⟩, 5, 5⟩], none⟩
          [⟨⟨1, "beer", 5, 10, 1, 1⟩, 3⟩, ⟨⟨2, "coke", 3, 10, 1, 1⟩, 2⟩]) :=
  ⟨(submit_merge_absolute
      [⟨7, 4, "pending", none, none, [⟨⟨1, "beer", 5, 10, 1, 1⟩, 5, 5⟩], none⟩]
      ⟨"products", some ⟨4, 4, 4, "main_hall", "occupied"⟩, some "anonymous",
        none, "", "",
        [⟨⟨1, "beer", 5, 10, 1, 1⟩, 3⟩, ⟨⟨2, "coke", 3, 10, 1, 1⟩, 2⟩], ""⟩
      ⟨4, 4, 4, "main_hall", "occupied"⟩ "anonymous"
      ⟨7, 4, "pending", none, none, [⟨⟨1, "beer", 5, 10, 1, 1⟩, 5, 5⟩], none⟩
      rfl rfl (by decide) (by decide) (by decide)).1
      ⟨⟨1, "beer", 5, 10, 1, 1⟩, 3⟩ (by decide) 5 (by decide) (by decide),
    (submit_merge_absolute
      [⟨7, 4, "pending", none, none, [⟨⟨1, "beer", 5, 10, 1, 1⟩, 5, 5⟩], none⟩]
      ⟨"products", some ⟨4, 4, 4, "main_hall", "occupied"⟩, some "anonymous",
        none, "", "",
        [⟨⟨1, "beer", 5, 10, 1, 1⟩, 3⟩, ⟨⟨2, "coke", 3, 10, 1, 1⟩, 2⟩], ""⟩
      ⟨4, 4, 4, "main_hall", "occupied"⟩ "anonymous"
      ⟨7, 4, "pending", none, none, [⟨⟨1, "beer", 5, 10, 1, 1⟩, 5, 5⟩], none⟩
      rfl rfl (by decide) (by decide) (by decide)).2.2.2.1
      ⟨⟨1, "beer", 5, 10, 1, 1⟩, 3⟩ (by decide) (by decide),
    (submit_merge_absolute
      [⟨7, 4, "pending", none, none, [⟨⟨1, "beer", 5, 10, 1, 1⟩, 5, 5⟩], none⟩]
      ⟨"products", some ⟨4, 4, 4, "main_hall", "occupied"⟩, some "anonymous",
        none, "", "",
        [⟨⟨1, "beer", 5, 10, 1, 1⟩, 3⟩, ⟨⟨2, "coke", 3, 10, 1, 1⟩, 2⟩], ""⟩
      ⟨4, 4, 4, "main_hall", "occupied"⟩ "anonymous"
      ⟨7, 4, "pending", none, none, [⟨⟨1, "beer", 5, 10, 1, 1⟩, 5, 5⟩], none⟩
      rfl rfl (by decide) (by decide) (by decide)).2.2.2.2 (by decide)⟩

end BarPOS
